import Mathlib

/-!
Shallow embedding of the idle-game state engine in `src/app.rs`.

The Rust code stores the counter and the production rate as `BigUint`
(arbitrary-precision non-negative integers), modelled here as `Nat`.
Timestamps are `f64` milliseconds since the epoch; all timestamps that
occur in the program are integral millisecond counts well inside the
exactly-representable range of `f64`, so they are modelled as `Int` and
the float division `(now - last_save) / 1000.0` followed by the Rust
saturating cast `as u32` is modelled as integer division truncating
toward zero, clamped to `[0, 2^32 - 1]`.

`BigUint::to_string` / `str::parse::<BigUint>` (used by the serde
helpers `big_uint_serde::serialize` / `deserialize`) are modelled by
`natToChars` / `parseNat` over lists of characters.  `LocalStorage` is
modelled as an explicit `Option Blob` value threaded through the
reducer; a missing key or an unreadable/undeserializable blob is the
`none` case, while a present but semantically malformed blob (bad digit
strings) is a `Blob` that `deserializeBlob` rejects.
-/

/-- Value of a little-endian (least-significant-first) list of decimal
digits. -/
def decValue : List Nat → Nat
  | [] => 0
  | d :: ds => d + 10 * decValue ds

/-- Decimal digits of `n`, least significant first, via explicit fuel
(`fuel` bounds the number of division steps). -/
def natDigitsAux : Nat → Nat → List Nat
  | 0, _ => []
  | fuel + 1, n => if n = 0 then [] else n % 10 :: natDigitsAux fuel (n / 10)

/-- Decimal digits of `n`, least significant first; `n` itself is always
enough fuel. -/
def natDigits (n : Nat) : List Nat := natDigitsAux n n

/-- The character for a decimal digit `d < 10`. -/
def digitChar (d : Nat) : Char := Char.ofNat (48 + d)

/-- Model of Rust `BigUint::to_string`: most-significant-first decimal
digit characters, with `0` rendered as `"0"`. -/
def natToChars (n : Nat) : List Char :=
  if n = 0 then ['0'] else ((natDigits n).map digitChar).reverse

/-- The digit value of a character, `none` for a non-digit. -/
def charToDigit (c : Char) : Option Nat :=
  if c.isDigit then some (c.toNat - 48) else none

/-- Accumulating parse of most-significant-first digit characters;
fails on the first non-digit character. -/
def parseNatAux (acc : Nat) : List Char → Option Nat
  | [] => some acc
  | c :: cs =>
    match charToDigit c with
    | some d => parseNatAux (acc * 10 + d) cs
    | none => none

/-- Model of Rust `str::parse::<BigUint>` as used by
`big_uint_serde::deserialize`: rejects the empty string and any
non-digit character, otherwise reads the decimal value. -/
def parseNat (cs : List Char) : Option Nat :=
  if cs.isEmpty then none else parseNatAux 0 cs

/-- The magnitude-suffix table `SUFFIXES` from `app.rs`. -/
def SUFFIXES : List String :=
  ["", "K", "M", "B", "T", "Qa", "Qi", "Sx", "Sp", "Oc"]

/-- Model of `format_number` from `app.rs`, operating on the decimal
digit characters of `num`.  Rust's `&num_str[..k]` and
`num_str.get(a..b).unwrap_or(default)` on the ASCII digit string become
`List.take` / `List.drop` with an explicit bounds check for the
`unwrap_or` default. -/
def format_number (num : Nat) : String :=
  let num_str := natToChars num
  let len := num_str.length
  if len ≤ 3 then
    String.mk num_str
  else if SUFFIXES.length ≤ len / 3 then
    let first_digit := num_str.take 1
    let second_digits := if 3 ≤ len then (num_str.drop 1).take 2 else ['0']
    String.mk (first_digit ++ '.' :: second_digits ++ 'e' :: natToChars (len - 1))
  else
    let suffix_index := (len - 1) / 3
    let offset := len - suffix_index * 3
    let main_digits := num_str.take offset
    let decimal_digits :=
      if offset + 2 ≤ len then (num_str.drop offset).take 2 else ['0', '0']
    if decimal_digits = ['0', '0'] then
      String.mk (main_digits ++ (SUFFIXES.getD suffix_index "").data)
    else
      String.mk (main_digits ++ '.' :: decimal_digits ++ (SUFFIXES.getD suffix_index "").data)

/-- The game state `State` from `app.rs`: `BigUint` fields as `Nat`,
`f64` millisecond timestamps as `Int`. -/
structure State where
  counter : Nat
  production : Nat
  last_save : Int
  last_saved_at : Option Int
deriving DecidableEq, Repr

/-- The serialized form of a `State` as written to local storage:
the two big integers as decimal strings (serde via `big_uint_serde`),
the timestamps as plain numbers. -/
structure Blob where
  counter : List Char
  production : List Char
  last_save : Int
  last_saved_at : Option Int
deriving DecidableEq, Repr

/-- Serialization of a `State` (serde `Serialize` with
`big_uint_serde::serialize` on the two `BigUint` fields). -/
def serializeState (s : State) : Blob :=
  ⟨natToChars s.counter, natToChars s.production, s.last_save, s.last_saved_at⟩

/-- Deserialization of a stored blob (serde `Deserialize` with
`big_uint_serde::deserialize` on the two `BigUint` fields); fails if a
digit string does not parse. -/
def deserializeBlob (b : Blob) : Option State :=
  match parseNat b.counter, parseNat b.production with
  | some c, some p => some ⟨c, p, b.last_save, b.last_saved_at⟩
  | _, _ => none

/-- The action enum `Msg` from `app.rs`. -/
inductive Msg
  | Tick
  | UpgradeProduction
  | Save
  | Load
  | Reset
deriving DecidableEq, Repr

/-- `State::new`: fresh state at wall-clock time `now`. -/
def State.new (now : Int) : State :=
  ⟨0, 1, now, none⟩

/-- `State::save`: the blob written to local storage — a clone of the
state with `last_saved_at` stamped to `now` (note: `last_save` is left
as it was). -/
def State.save (s : State) (now : Int) : Blob :=
  serializeState { s with last_saved_at := some now }

/-- The elapsed-seconds computation in `State::load`:
`((now - state.last_save) / 1000.0) as u32`.  The `f64` division
truncated by the saturating `as u32` cast becomes integer division
clamped to `[0, 2^32 - 1]`. -/
def elapsedSeconds (now last : Int) : Nat :=
  min ((now - last).toNat / 1000) (2 ^ 32 - 1)

/-- The body of the closure in `State::load`: offline catch-up
(`if elapsed_seconds > 0 { counter += production * elapsed_seconds }`)
followed by `state.last_save = now`. -/
def applyCatchup (now : Int) (st : State) : State :=
  let elapsed := elapsedSeconds now st.last_save
  let st' :=
    if 0 < elapsed then
      { st with counter := st.counter + st.production * elapsed }
    else st
  { st' with last_save := now }

/-- `State::load`: read and deserialize the stored blob (`none` on a
missing key or failed deserialization), then apply offline catch-up and
stamp `last_save = now`. -/
def State.load (store : Option Blob) (now : Int) : Option State :=
  (store.bind deserializeBlob).map (applyCatchup now)

/-- The environment a single reducer step runs in: the wall-clock time,
the current content of the storage slot, whether a storage write would
succeed, and the error string a failed write would produce. -/
structure Env where
  now : Int
  store : Option Blob
  save_ok : Bool
  save_err : String
deriving DecidableEq, Repr

/-- The result of one reducer step: the new state, the storage content
after the step, and the console-log lines emitted during the step. -/
structure StepResult where
  state : State
  store : Option Blob
  log : List String
deriving DecidableEq, Repr

/-- The `reducer` function from `app.rs`, with the storage and console
effects made explicit.  `Save` calls `state.save()` and on failure logs
the error (`unwrap_or_else(|e| console::log_1(..))`), returning
`state.clone()` either way; `Load` returns `State::load()` or, when
that is `None`, the unchanged input state — without logging. -/
def reducer (env : Env) (state : State) (msg : Msg) : StepResult :=
  match msg with
  | .Tick =>
    ⟨⟨state.counter + state.production, state.production,
      state.last_save, state.last_saved_at⟩, env.store, []⟩
  | .UpgradeProduction =>
    ⟨⟨state.counter, state.production * 2,
      state.last_save, state.last_saved_at⟩, env.store, []⟩
  | .Save =>
    if env.save_ok then ⟨state, some (State.save state env.now), []⟩
    else ⟨state, env.store, [env.save_err]⟩
  | .Load =>
    match State.load env.store env.now with
    | some s => ⟨s, env.store, []⟩
    | none => ⟨state, env.store, []⟩
  | .Reset => ⟨State.new env.now, env.store, []⟩

/-- A configuration of the running application: the current state
snapshot together with the storage slot. -/
structure Config where
  state : State
  store : Option Blob

/-- Configurations reachable from a fresh state with an empty storage
slot, by reducer steps under arbitrary environments (arbitrary clock
readings and storage-write outcomes). -/
inductive Reachable : Config → Prop
  | init (now : Int) : Reachable ⟨State.new now, none⟩
  | step (c : Config) (now : Int) (ok : Bool) (err : String) (msg : Msg)
      (h : Reachable c) :
      Reachable ⟨(reducer ⟨now, c.store, ok, err⟩ c.state msg).state,
                 (reducer ⟨now, c.store, ok, err⟩ c.state msg).store⟩

/-- `natDigitsAux` at `0` is empty for any fuel. -/
theorem natDigitsAux_zero (fuel : Nat) : natDigitsAux fuel 0 = [] := by
  cases fuel <;> simp [natDigitsAux]

/-- With enough fuel, `natDigitsAux` computes a digit list whose value
is `n`. -/
theorem decValue_natDigitsAux :
    ∀ fuel n : Nat, n ≤ fuel → decValue (natDigitsAux fuel n) = n := by
  intro fuel
  induction fuel with
  | zero =>
    intro n hn
    have : n = 0 := Nat.le_zero.mp hn
    subst this
    simp [natDigitsAux, decValue]
  | succ f ih =>
    intro n hn
    by_cases h0 : n = 0
    · subst h0; simp [natDigitsAux, decValue]
    · have hdiv : n / 10 ≤ f := by
        have := Nat.div_lt_self (Nat.pos_of_ne_zero h0) (by norm_num : 1 < 10)
        omega
      simp [natDigitsAux, h0, decValue, ih _ hdiv]
      omega

/-- Every entry produced by `natDigitsAux` is a decimal digit. -/
theorem natDigitsAux_lt :
    ∀ fuel n d : Nat, d ∈ natDigitsAux fuel n → d < 10 := by
  intro fuel
  induction fuel with
  | zero => intro n d hd; simp [natDigitsAux] at hd
  | succ f ih =>
    intro n d hd
    by_cases h0 : n = 0
    · subst h0; simp [natDigitsAux] at hd
    · simp [natDigitsAux, h0] at hd
      rcases hd with hd | hd
      · omega
      · exact ih _ _ hd

/-- The digit list of `n` evaluates back to `n`. -/
theorem decValue_natDigits (n : Nat) : decValue (natDigits n) = n :=
  decValue_natDigitsAux n n le_rfl

/-- Every entry of `natDigits n` is a decimal digit. -/
theorem natDigits_lt {n d : Nat} (h : d ∈ natDigits n) : d < 10 :=
  natDigitsAux_lt n n d h

/-- A positive number has a nonempty digit list. -/
theorem natDigits_ne_nil {n : Nat} (h : n ≠ 0) : natDigits n ≠ [] := by
  cases n with
  | zero => exact absurd rfl h
  | succ m => simp [natDigits, natDigitsAux]

/-- `charToDigit` inverts `digitChar` on decimal digits. -/
theorem charToDigit_digitChar {d : Nat} (h : d < 10) :
    charToDigit (digitChar d) = some d := by
  interval_cases d <;> decide

/-- The character of a decimal digit is a digit character. -/
theorem digitChar_isDigit {d : Nat} (h : d < 10) :
    (digitChar d).isDigit = true := by
  interval_cases d <;> decide

/-- The character of a decimal digit is not the decimal point. -/
theorem digitChar_ne_dot {d : Nat} (h : d < 10) : digitChar d ≠ '.' := by
  interval_cases d <;> decide

/-- `parseNatAux` over an append runs the two halves in sequence. -/
theorem parseNatAux_append :
    ∀ (l₁ l₂ : List Char) (acc : Nat),
      parseNatAux acc (l₁ ++ l₂) =
        (parseNatAux acc l₁).bind fun a => parseNatAux a l₂ := by
  intro l₁
  induction l₁ with
  | nil => intro l₂ acc; simp [parseNatAux]
  | cons c cs ih =>
    intro l₂ acc
    cases h : charToDigit c with
    | none => simp [parseNatAux, h]
    | some d => simp [parseNatAux, h, ih]

/-- Parsing the reversed character rendering of a little-endian digit
list recovers its value (shifted past the accumulator). -/
theorem parseNatAux_rev_map :
    ∀ ds : List Nat, (∀ d ∈ ds, d < 10) →
      ∀ acc : Nat,
        parseNatAux acc ((ds.map digitChar).reverse) =
          some (acc * 10 ^ ds.length + decValue ds) := by
  intro ds
  induction ds with
  | nil => intro _ acc; simp [parseNatAux, decValue]
  | cons d ds ih =>
    intro h acc
    have hd : d < 10 := h d (List.mem_cons_self d ds)
    rw [List.map_cons, List.reverse_cons, parseNatAux_append,
      ih (fun x hx => h x (List.mem_cons_of_mem _ hx)) acc]
    simp [parseNatAux, charToDigit_digitChar hd, decValue]
    ring

/-- Round trip of the decimal string encoding: parsing the rendering of
`n` gives back exactly `n` (model of `BigUint` to-string / parse). -/
theorem parseNat_natToChars (n : Nat) : parseNat (natToChars n) = some n := by
  by_cases h0 : n = 0
  · subst h0; rfl
  · have hne : natDigits n ≠ [] := natDigits_ne_nil h0
    have hrev : ¬ (((natDigits n).map digitChar).reverse.isEmpty = true) := by
      simp [List.isEmpty_iff, hne]
    rw [natToChars, if_neg h0, parseNat, if_neg hrev,
      parseNatAux_rev_map (natDigits n) (fun d hd => natDigits_lt hd) 0]
    simp [decValue_natDigits]

/-- Serializing a state and deserializing the blob is the identity
(big-integer fields round-trip through decimal strings). -/
theorem deserialize_serialize (s : State) :
    deserializeBlob (serializeState s) = some s := by
  simp [deserializeBlob, serializeState, parseNat_natToChars]

/-- Every character produced by `natToChars` is a decimal digit
character. -/
theorem natToChars_isDigit {n : Nat} {c : Char} (h : c ∈ natToChars n) :
    c.isDigit = true := by
  by_cases h0 : n = 0
  · subst h0
    simp [natToChars] at h
    subst h
    decide
  · simp [natToChars, h0] at h
    obtain ⟨d, hd, rfl⟩ := h
    exact digitChar_isDigit (natDigits_lt hd)

/-- The decimal point is not among the characters of `natToChars`. -/
theorem dot_not_mem_natToChars (n : Nat) : '.' ∉ natToChars n := by
  intro hm
  have := natToChars_isDigit hm
  simp at this

/-- The decimal point does not occur in any magnitude suffix. -/
theorem dot_not_mem_suffix (i : Nat) : '.' ∉ (SUFFIXES.getD i "").data := by
  rcases Nat.lt_or_ge i 10 with h | h
  · interval_cases i <;> decide
  · rw [List.getD_eq_default _ _ (by simpa [SUFFIXES] using h)]
    decide

/-- A list of length at least 3 starts with three explicit elements. -/
theorem exists_three_chars {l : List Char} (h : 3 ≤ l.length) :
    ∃ a b c t, l = a :: b :: c :: t := by
  match l, h with
  | a :: b :: c :: t, _ => exact ⟨a, b, c, t, rfl⟩

/-- A list of length exactly 2 is an explicit pair. -/
theorem exists_pair_chars {l : List Char} (h : l.length = 2) :
    ∃ a b, l = [a, b] := by
  match l, h with
  | [a, b], _ => exact ⟨a, b, rfl⟩

/-- Splitting a character list at a unique decimal point: if the point
occurs in neither `A` nor `B`, a second decomposition around a point is
the same decomposition. -/
theorem dot_split {A B C D : List Char} (hA : '.' ∉ A) (hB : '.' ∉ B)
    (h : A ++ '.' :: B = C ++ '.' :: D) : A = C ∧ B = D := by
  induction A generalizing C with
  | nil =>
    cases C with
    | nil => simpa using h
    | cons c C' =>
      simp only [List.nil_append, List.cons_append, List.cons.injEq] at h
      obtain ⟨h1, h2⟩ := h
      exact absurd (h2 ▸ List.mem_append_right C' (List.mem_cons_self '.' D)) hB
  | cons a A' ih =>
    cases C with
    | nil =>
      simp only [List.cons_append, List.nil_append, List.cons.injEq] at h
      exact absurd (h.1 ▸ List.mem_cons_self a A') hA
    | cons c C' =>
      simp only [List.cons_append, List.cons.injEq] at h
      obtain ⟨h1, h2⟩ := h
      have hr := ih (fun hm => hA (List.mem_cons_of_mem a hm)) h2
      exact ⟨by rw [h1, hr.1], hr.2⟩

/-- C1: for every state `s` (and environment), the `Tick` action yields
a state whose counter is `s.counter + s.production`, whose production is
`s.production`, and whose `last_save` / `last_saved_at` are copied
unchanged. -/
theorem c1_tick_adds_production (env : Env) (s : State) :
    (reducer env s .Tick).state =
      ⟨s.counter + s.production, s.production, s.last_save, s.last_saved_at⟩ :=
  rfl

/-- C2: for every state `s` (and environment), `UpgradeProduction`
yields a state whose production is `s.production * 2`, with counter,
`last_save` and `last_saved_at` unchanged. -/
theorem c2_upgrade_doubles_production (env : Env) (s : State) :
    (reducer env s .UpgradeProduction).state =
      ⟨s.counter, s.production * 2, s.last_save, s.last_saved_at⟩ :=
  rfl

/-- C10: the `Save` action returns a state exactly equal to the input
state — whether or not the storage write succeeds — and any sequence of
`Save` actions (under arbitrary environments) leaves the in-memory
state, in particular an absent `last_saved_at`, unchanged. -/
theorem c10_save_returns_state_unchanged (env : Env) (s : State) :
    (reducer env s .Save).state = s ∧
      ∀ envs : List Env,
        envs.foldl (fun st e => (reducer e st .Save).state) s = s := by
  constructor
  · cases h : env.save_ok <;> simp [reducer, h]
  · intro envs
    induction envs generalizing s with
    | nil => rfl
    | cons e es ih =>
      have hstep : (reducer e s .Save).state = s := by
        cases h : e.save_ok <;> simp [reducer, h]
      simp [List.foldl_cons, hstep, ih]

/-- C9: `format_number` renders 999 as "999", 1000 as "1K", 1500 as
"1.50K"; every number whose decimal rendering has 30 digits is formatted
in scientific notation `D.DDe29`; below the scientific threshold a
trailing "00" decimal part is suppressed (the output never contains
".00"); and any value of at most 3 digits is returned as its raw digit
string with no suffix. -/
theorem c9_format_number :
    format_number 999 = "999" ∧
    format_number 1000 = "1K" ∧
    format_number 1500 = "1.50K" ∧
    (∀ n : Nat, (natToChars n).length = 30 →
      ∃ a b c : Char, a.isDigit = true ∧ b.isDigit = true ∧ c.isDigit = true ∧
        format_number n = String.mk [a, '.', b, c, 'e', '2', '9']) ∧
    (∀ n : Nat, (natToChars n).length < 30 →
      ¬ ['.', '0', '0'] <:+: (format_number n).data) ∧
    (∀ n : Nat, (natToChars n).length ≤ 3 →
      format_number n = String.mk (natToChars n)) := by
  refine ⟨by decide, by decide, by decide, ?_, ?_, ?_⟩
  · -- 30-digit numbers use scientific notation D.DDe29
    intro n hlen
    obtain ⟨a, b, c, t, heq⟩ := exists_three_chars (l := natToChars n) (by omega)
    refine ⟨a, b, c,
      natToChars_isDigit (heq ▸ List.mem_cons_self _ _),
      natToChars_isDigit (heq ▸ List.mem_cons_of_mem _ (List.mem_cons_self _ _)),
      natToChars_isDigit (heq ▸ List.mem_cons_of_mem _
        (List.mem_cons_of_mem _ (List.mem_cons_self _ _))), ?_⟩
    have h29 : natToChars (30 - 1) = ['2', '9'] := by decide
    simp only [format_number, hlen, h29]
    norm_num [SUFFIXES]
    rw [heq]
    simp
  · -- below 30 digits the output never contains ".00"
    intro n hlen hinf
    by_cases h3 : (natToChars n).length ≤ 3
    · -- raw digits: no decimal point at all
      have hfm : format_number n = String.mk (natToChars n) := by
        simp only [format_number]
        rw [if_pos h3]
      rw [hfm] at hinf
      exact dot_not_mem_natToChars n (hinf.subset (List.mem_cons_self _ _))
    · -- suffix branch
      push_neg at h3
      have h10 : SUFFIXES.length = 10 := rfl
      have hnot : ¬ SUFFIXES.length ≤ (natToChars n).length / 3 := by omega
      have hoffle :
          (natToChars n).length - ((natToChars n).length - 1) / 3 * 3 + 2 ≤
            (natToChars n).length := by omega
      have hdeclen :
          (((natToChars n).drop
            ((natToChars n).length - ((natToChars n).length - 1) / 3 * 3)).take 2).length
            = 2 := by
        simp only [List.length_take, List.length_drop]
        omega
      obtain ⟨d1, d2, hdec⟩ := exists_pair_chars hdeclen
      have hmain_dot :
          '.' ∉ (natToChars n).take
            ((natToChars n).length - ((natToChars n).length - 1) / 3 * 3) :=
        fun hm => dot_not_mem_natToChars n (List.take_subset _ _ hm)
      have hd1 : d1 ∈ natToChars n := by
        have hmem : d1 ∈ ((natToChars n).drop
            ((natToChars n).length - ((natToChars n).length - 1) / 3 * 3)).take 2 := by
          rw [hdec]; simp
        exact List.drop_subset _ _ (List.take_subset _ _ hmem)
      have hd2 : d2 ∈ natToChars n := by
        have hmem : d2 ∈ ((natToChars n).drop
            ((natToChars n).length - ((natToChars n).length - 1) / 3 * 3)).take 2 := by
          rw [hdec]; simp
        exact List.drop_subset _ _ (List.take_subset _ _ hmem)
      have hsuf_dot := dot_not_mem_suffix (((natToChars n).length - 1) / 3)
      by_cases hzz :
          ((natToChars n).drop
            ((natToChars n).length - ((natToChars n).length - 1) / 3 * 3)).take 2
            = ['0', '0']
      · -- decimal "00" suppressed: output has no '.' at all
        have hfm : format_number n =
            String.mk ((natToChars n).take
                ((natToChars n).length - ((natToChars n).length - 1) / 3 * 3) ++
              (SUFFIXES.getD (((natToChars n).length - 1) / 3) "").data) := by
          simp only [format_number]
          rw [if_neg (by omega : ¬ (natToChars n).length ≤ 3), if_neg hnot,
            if_pos hoffle, if_pos hzz]
        rw [hfm] at hinf
        have hdot := hinf.subset (List.mem_cons_self '.' ['0', '0'])
        rcases List.mem_append.mp hdot with h | h
        · exact hmain_dot h
        · exact hsuf_dot h
      · -- decimal shown: a ".00" infix would force the decimal to be "00"
        have hfm : format_number n =
            String.mk ((natToChars n).take
                ((natToChars n).length - ((natToChars n).length - 1) / 3 * 3) ++
              '.' :: (((natToChars n).drop
                ((natToChars n).length - ((natToChars n).length - 1) / 3 * 3)).take 2 ++
                (SUFFIXES.getD (((natToChars n).length - 1) / 3) "").data)) := by
          simp only [format_number]
          rw [if_neg (by omega : ¬ (natToChars n).length ≤ 3), if_neg hnot,
            if_pos hoffle, if_neg hzz]
          simp [List.append_assoc]
        rw [hfm, hdec] at hinf
        obtain ⟨u, v, huv⟩ := hinf
        have huv' :
            (natToChars n).take
                ((natToChars n).length - ((natToChars n).length - 1) / 3 * 3) ++
              '.' :: (d1 :: d2 ::
                (SUFFIXES.getD (((natToChars n).length - 1) / 3) "").data) =
            u ++ '.' :: ('0' :: '0' :: v) := by
          have h0 : u ++ ['.', '0', '0'] ++ v = u ++ '.' :: ('0' :: '0' :: v) := by
            simp
          rw [← h0, huv]
          rfl
        have hB : '.' ∉ d1 :: d2 ::
            (SUFFIXES.getD (((natToChars n).length - 1) / 3) "").data := by
          intro hm
          rcases List.mem_cons.mp hm with h1 | hm
          · exact dot_not_mem_natToChars n (by rw [h1]; exact hd1)
          · rcases List.mem_cons.mp hm with h2 | hm
            · exact dot_not_mem_natToChars n (by rw [h2]; exact hd2)
            · exact hsuf_dot hm
        have hsp := (dot_split hmain_dot hB huv').2
        have hd1second : d1 = '0' := by injection hsp
        have hd2' : d2 = '0' := by
          injection hsp with _ h'
          injection h'
        rw [hd1second, hd2'] at hdec
        exact hzz hdec
  · -- at most 3 digits: the raw digit string
    intro n hlen
    simp only [format_number]
    rw [if_pos hlen]

/-- Witness for C9 at concrete inputs: `10^29` has 30 digits and is
formatted scientifically, 1500 is below the threshold and contains no
".00", and 999 is returned raw. -/
theorem c9_format_number_witness :
    ((natToChars (10 ^ 29)).length = 30 ∧
      ∃ a b c : Char, a.isDigit = true ∧ b.isDigit = true ∧ c.isDigit = true ∧
        format_number (10 ^ 29) = String.mk [a, '.', b, c, 'e', '2', '9']) ∧
    ((natToChars 1500).length < 30 ∧
      ¬ ['.', '0', '0'] <:+: (format_number 1500).data) ∧
    ((natToChars 999).length ≤ 3 ∧
      format_number 999 = String.mk (natToChars 999)) :=
  ⟨⟨by decide, c9_format_number.2.2.2.1 (10 ^ 29) (by decide)⟩,
   ⟨by decide, c9_format_number.2.2.2.2.1 1500 (by decide)⟩,
   ⟨by decide, c9_format_number.2.2.2.2.2 999 (by decide)⟩⟩


/-- Catch-up in closed form: the counter gains
`production * elapsedSeconds` (a zero gain when no whole second
elapsed), `last_save` becomes `now`, the other fields are copied. -/
theorem applyCatchup_eq (now : Int) (st : State) :
    applyCatchup now st =
      ⟨st.counter + st.production * elapsedSeconds now st.last_save,
       st.production, now, st.last_saved_at⟩ := by
  unfold applyCatchup
  by_cases he : 0 < elapsedSeconds now st.last_save
  · simp [he]
  · have h0 : elapsedSeconds now st.last_save = 0 := by omega
    simp [h0]

/-- Inversion for a successful load: the stored blob deserializes to
some state, and the result is that state with catch-up applied. -/
theorem load_some_inv {store : Option Blob} {now : Int} {s' : State}
    (h : State.load store now = some s') :
    ∃ b st', store = some b ∧ deserializeBlob b = some st' ∧
      s' = ⟨st'.counter + st'.production * elapsedSeconds now st'.last_save,
            st'.production, now, st'.last_saved_at⟩ := by
  cases store with
  | none => simp [State.load] at h
  | some b =>
    cases hd : deserializeBlob b with
    | none => simp [State.load, hd] at h
    | some st =>
      refine ⟨b, st, rfl, hd, ?_⟩
      simp only [State.load, Option.some_bind, hd, Option.map_some',
        applyCatchup_eq, Option.some.injEq] at h
      exact h.symm

/-- Loading a blob written by `State::save` yields the saved counter
plus catch-up for the time between the state's own `last_save` (which
`save` does not update) and the load time. -/
theorem load_save_eq (s : State) (now now₂ : Int) :
    State.load (some (State.save s now)) now₂ =
      some ⟨s.counter + s.production * elapsedSeconds now₂ s.last_save,
            s.production, now₂, some now⟩ := by
  have hdes : deserializeBlob (State.save s now) =
      some { s with last_saved_at := some now } :=
    deserialize_serialize { s with last_saved_at := some now }
  simp [State.load, hdes, applyCatchup_eq]

/-- Counterexample to C3 as stated: at an elapsed time of 2^32 seconds
the code saturates the elapsed-seconds value at `2^32 - 1` (the Rust
`as u32` cast), so the loaded counter is not
`storedCounter + production * floor((now - lastSave) / 1000)`. -/
theorem c3_counterexample :
    State.load (some ⟨['0'], ['1'], 0, none⟩) 4294967296000 =
      some ⟨4294967295, 1, 4294967296000, none⟩ ∧
    (4294967295 : Nat) ≠ ((4294967296000 : Int) - 0).toNat / 1000 := by
  constructor
  · decide
  · decide

/-- C3 amended: on every successful load, the elapsed-seconds value is
`floor((now - lastSave) / 1000)` clamped to non-negative and saturated
at `2^32 - 1` (the Rust `as u32` cast); the returned counter is
`storedCounter + production * elapsedSeconds` (when the elapsed time is
zero the increment is zero), the returned `last_save` is `now`, and
production and `last_saved_at` are copied; in particular a stored state
with production 5 and `last_save = T` loaded at `T + 12500` ms gains
exactly `5 * 12`. -/
theorem c3_offline_catchup :
    (∀ (b : Blob) (st : State) (now : Int), deserializeBlob b = some st →
      ∃ st' : State, State.load (some b) now = some st' ∧
        st'.counter = st.counter + st.production * elapsedSeconds now st.last_save ∧
        st'.production = st.production ∧
        st'.last_save = now ∧
        st'.last_saved_at = st.last_saved_at) ∧
    (∀ (c : Nat) (last : Int) (lsa : Option Int),
      State.load (some ⟨natToChars c, natToChars 5, last, lsa⟩) (last + 12500) =
        some ⟨c + 5 * 12, 5, last + 12500, lsa⟩) := by
  constructor
  · intro b st now h
    exact ⟨applyCatchup now st, by simp [State.load, h],
      by simp [applyCatchup_eq], by simp [applyCatchup_eq],
      by simp [applyCatchup_eq], by simp [applyCatchup_eq]⟩
  · intro c last lsa
    have hdes : deserializeBlob ⟨natToChars c, natToChars 5, last, lsa⟩ =
        some ⟨c, 5, last, lsa⟩ := by
      simp [deserializeBlob, parseNat_natToChars]
    have he : elapsedSeconds (last + 12500) last = 12 := by
      simp [elapsedSeconds]
    simp [State.load, hdes, applyCatchup_eq, he]

/-- Witness for C3 at a concrete stored blob: counter 7, production 5,
saved at time 0 and loaded at 12500 ms, gaining 5 * 12 = 60. -/
theorem c3_offline_catchup_witness :
    (deserializeBlob ⟨['7'], ['5'], 0, none⟩ = some ⟨7, 5, 0, none⟩ ∧
      ∃ st' : State, State.load (some ⟨['7'], ['5'], 0, none⟩) 12500 = some st' ∧
        st'.counter = 7 + 5 * elapsedSeconds 12500 (0 : Int) ∧
        st'.production = 5 ∧
        st'.last_save = 12500 ∧
        st'.last_saved_at = none) ∧
    State.load (some ⟨natToChars 7, natToChars 5, 0, none⟩) (0 + 12500) =
      some ⟨7 + 5 * 12, 5, 0 + 12500, none⟩ :=
  ⟨⟨by decide,
    c3_offline_catchup.1 ⟨['7'], ['5'], 0, none⟩ ⟨7, 5, 0, none⟩ 12500 (by decide)⟩,
   c3_offline_catchup.2 7 0 none⟩

/-- Counterexample to C4 as stated: `save` does not update `last_save`,
so loading immediately after saving a state whose `last_save` is 10
seconds old re-applies 10 seconds of catch-up — the counter comes back
as 10, not 0. -/
theorem c4_counterexample :
    State.load (some (State.save ⟨0, 1, 0, none⟩ 10000)) 10000 =
      some ⟨10, 1, 10000, some 10000⟩ ∧
    (10 : Nat) ≠ 0 := by
  constructor
  · decide
  · decide

/-- C4 amended: the decimal-string encoding of the two big-integer
fields is lossless (serialize-then-deserialize is the identity, for
arbitrarily large values such as 2^200); loading a just-saved state
always reproduces production exactly, but reproduces the counter
exactly only when no whole second has elapsed since the state's own
`last_save` (which `save` leaves untouched) — in general the loaded
counter is `s.counter + s.production * elapsedSeconds(now, s.last_save)`. -/
theorem c4_roundtrip :
    (∀ s : State, deserializeBlob (serializeState s) = some s) ∧
    (∀ (s : State) (now now₂ : Int),
      State.load (some (State.save s now)) now₂ =
        some ⟨s.counter + s.production * elapsedSeconds now₂ s.last_save,
              s.production, now₂, some now⟩) ∧
    (∀ (s : State) (now : Int), elapsedSeconds now s.last_save = 0 →
      State.load (some (State.save s now)) now =
        some ⟨s.counter, s.production, now, some now⟩) ∧
    State.load (some (State.save ⟨2 ^ 200, 3 ^ 100, 5000, none⟩ 5000)) 5000 =
      some ⟨2 ^ 200, 3 ^ 100, 5000, some 5000⟩ := by
  refine ⟨deserialize_serialize, load_save_eq, ?_, ?_⟩
  · intro s now h0
    rw [load_save_eq, h0]
    simp
  · rw [load_save_eq]
    simp [elapsedSeconds]

/-- Witness for C4 at a concrete state: saving and reloading at the
same instant (zero whole seconds elapsed) reproduces counter and
production exactly. -/
theorem c4_roundtrip_witness :
    elapsedSeconds 5000 ((⟨42, 7, 5000, none⟩ : State).last_save) = 0 ∧
    State.load (some (State.save ⟨42, 7, 5000, none⟩ 5000)) 5000 =
      some ⟨42, 7, 5000, some 5000⟩ :=
  ⟨by decide, c4_roundtrip.2.2.1 ⟨42, 7, 5000, none⟩ 5000 (by decide)⟩

/-- Counterexample to C5 as stated: a successful save at time 5000 of a
state whose `last_save` is 0 writes a blob whose `last_save` is still 0
— `save` stamps only `last_saved_at`, it does not update `lastSave` in
the persisted state. -/
theorem c5_counterexample :
    (reducer ⟨5000, none, true, ""⟩ ⟨0, 1, 0, none⟩ .Save).store =
      some (State.save ⟨0, 1, 0, none⟩ 5000) ∧
    (State.save ⟨0, 1, 0, none⟩ 5000).last_save = 0 ∧
    (0 : Int) ≠ 5000 := by
  refine ⟨by decide, by decide, by decide⟩

/-- C5 amended: every successful save writes exactly the blob
`State.save state now`, whose `last_saved_at` is `now`, whose counter
and production are the decimal encodings of the state's, and whose
`last_save` is copied unchanged (not updated); calling `Save` twice in
immediate succession with no intervening `Tick` leaves the in-memory
state unchanged, and the second persisted blob differs from the first
only in `last_saved_at`. -/
theorem c5_save_stamps :
    (∀ (env : Env) (s : State), env.save_ok = true →
      (reducer env s .Save).store = some (State.save s env.now)) ∧
    (∀ (s : State) (now : Int),
      (State.save s now).last_saved_at = some now ∧
      (State.save s now).last_save = s.last_save ∧
      (State.save s now).counter = natToChars s.counter ∧
      (State.save s now).production = natToChars s.production) ∧
    (∀ (e₁ e₂ : Env) (s : State),
      (reducer e₂ (reducer e₁ s .Save).state .Save).state = s ∧
      State.save (reducer e₁ s .Save).state e₂.now =
        { State.save s e₁.now with last_saved_at := some e₂.now }) := by
  refine ⟨?_, ?_, ?_⟩
  · intro env s h
    simp [reducer, h]
  · intro s now
    simp [State.save, serializeState]
  · intro e₁ e₂ s
    have h₁ : (reducer e₁ s .Save).state = s := by
      cases h : e₁.save_ok <;> simp [reducer, h]
    constructor
    · rw [h₁]
      cases h : e₂.save_ok <;> simp [reducer, h]
    · rw [h₁]
      simp [State.save, serializeState]

/-- Witness for C5: a concrete successful save writes the stamped
blob. -/
theorem c5_save_stamps_witness :
    (⟨5000, none, true, ""⟩ : Env).save_ok = true ∧
    (reducer ⟨5000, none, true, ""⟩ ⟨3, 2, 100, none⟩ .Save).store =
      some (State.save ⟨3, 2, 100, none⟩ (⟨5000, none, true, ""⟩ : Env).now) :=
  ⟨rfl, c5_save_stamps.1 ⟨5000, none, true, ""⟩ ⟨3, 2, 100, none⟩ rfl⟩

/-- Counterexample to C6 as stated: a failed `Load` (missing key)
returns the unchanged state but reports nothing to the log collaborator
— the log of the step is empty, so the failure is not reported. -/
theorem c6_counterexample :
    State.load none 0 = none ∧
    reducer ⟨0, none, true, "err"⟩ (State.new 0) .Load =
      ⟨State.new 0, none, []⟩ := by
  refine ⟨by decide, by decide⟩

/-- C6 amended: when a `Save` fails the reducer returns the unchanged
input state and reports the storage error once to the log collaborator;
when a `Load` fails (missing key or undeserializable blob) the reducer
returns the unchanged input state and logs nothing; in both cases a
valid state is returned and no error escapes to the caller. -/
theorem c6_failures :
    (∀ (env : Env) (s : State), env.save_ok = false →
      (reducer env s .Save).state = s ∧
      (reducer env s .Save).log = [env.save_err]) ∧
    (∀ (env : Env) (s : State), State.load env.store env.now = none →
      (reducer env s .Load).state = s ∧
      (reducer env s .Load).log = []) := by
  constructor
  · intro env s h
    simp [reducer, h]
  · intro env s h
    simp [reducer, h]

/-- Witness for C6: a failing save logs its error and keeps the state;
a failing load keeps the state and logs nothing. -/
theorem c6_failures_witness :
    ((⟨0, none, false, "write failed"⟩ : Env).save_ok = false ∧
      (reducer ⟨0, none, false, "write failed"⟩ ⟨1, 2, 0, none⟩ .Save).state =
        ⟨1, 2, 0, none⟩ ∧
      (reducer ⟨0, none, false, "write failed"⟩ ⟨1, 2, 0, none⟩ .Save).log =
        [(⟨0, none, false, "write failed"⟩ : Env).save_err]) ∧
    (State.load (⟨0, none, true, ""⟩ : Env).store (⟨0, none, true, ""⟩ : Env).now =
        none ∧
      (reducer ⟨0, none, true, ""⟩ ⟨1, 2, 0, none⟩ .Load).state = ⟨1, 2, 0, none⟩ ∧
      (reducer ⟨0, none, true, ""⟩ ⟨1, 2, 0, none⟩ .Load).log = []) :=
  ⟨⟨rfl, c6_failures.1 ⟨0, none, false, "write failed"⟩ ⟨1, 2, 0, none⟩ rfl⟩,
   ⟨rfl, c6_failures.2 ⟨0, none, true, ""⟩ ⟨1, 2, 0, none⟩ rfl⟩⟩

/-- Counterexample to C8 as stated: a successful `Load` (an action
other than `Reset`) can decrease the counter — here from 5 down to the
stored 0. -/
theorem c8_counterexample :
    (reducer ⟨0, some ⟨['0'], ['1'], 0, none⟩, true, ""⟩ ⟨5, 1, 0, none⟩
        .Load).state.counter = 0 ∧
    ¬ (5 : Nat) ≤ 0 := by
  refine ⟨by decide, by decide⟩

/-- C8 amended: the counter is non-decreasing under `Tick`,
`UpgradeProduction` and `Save`, and under a `Load` that fails; a
successful `Load` replaces the whole state with the stored state plus
catch-up, whose counter may be smaller than the current one. -/
theorem c8_counter_monotone :
    (∀ (env : Env) (s : State) (msg : Msg),
      msg = .Tick ∨ msg = .UpgradeProduction ∨ msg = .Save →
      s.counter ≤ (reducer env s msg).state.counter) ∧
    (∀ (env : Env) (s : State), State.load env.store env.now = none →
      (reducer env s .Load).state = s) ∧
    (∀ (env : Env) (s s' : State), State.load env.store env.now = some s' →
      (reducer env s .Load).state = s') := by
  refine ⟨?_, ?_, ?_⟩
  · intro env s msg h
    rcases h with rfl | rfl | rfl
    · simp [reducer]
    · simp [reducer]
    · cases h : env.save_ok <;> simp [reducer, h]
  · intro env s h
    simp [reducer, h]
  · intro env s s' h
    simp [reducer, h]

/-- Witness for C8: a concrete `Tick` does not decrease the counter,
and a failed `Load` leaves the state untouched. -/
theorem c8_counter_monotone_witness :
    ((Msg.Tick = Msg.Tick ∨ Msg.Tick = Msg.UpgradeProduction ∨
        Msg.Tick = Msg.Save) ∧
      (⟨5, 1, 0, none⟩ : State).counter ≤
        (reducer ⟨0, none, true, ""⟩ ⟨5, 1, 0, none⟩ .Tick).state.counter) ∧
    (State.load (⟨0, none, true, ""⟩ : Env).store (⟨0, none, true, ""⟩ : Env).now =
        none ∧
      (reducer ⟨0, none, true, ""⟩ ⟨5, 1, 0, none⟩ .Load).state =
        ⟨5, 1, 0, none⟩) :=
  ⟨⟨Or.inl rfl,
    c8_counter_monotone.1 ⟨0, none, true, ""⟩ ⟨5, 1, 0, none⟩ .Tick (Or.inl rfl)⟩,
   ⟨rfl, c8_counter_monotone.2.1 ⟨0, none, true, ""⟩ ⟨5, 1, 0, none⟩ rfl⟩⟩

/-- The storage slot is well-formed for the production invariant: any
blob it holds that deserializes at all deserializes to a state with
production at least 1. -/
def StoreInv (store : Option Blob) : Prop :=
  ∀ b, store = some b → ∀ st', deserializeBlob b = some st' → 1 ≤ st'.production

/-- Counterexample to C7 as stated: the `Load` transition does not
preserve `production ≥ 1` for every input — loading a (hand-edited or
foreign) blob whose production string is "0" yields a state with
production 0, although the input state satisfied the invariant. -/
theorem c7_counterexample :
    1 ≤ (⟨0, 1, 0, none⟩ : State).production ∧
    ¬ 1 ≤ (reducer ⟨0, some ⟨['5'], ['0'], 0, none⟩, true, ""⟩ ⟨0, 1, 0, none⟩
        .Load).state.production := by
  refine ⟨by decide, by decide⟩

/-- C7 amended: the fresh state has counter 0 and production 1 (so
`production ≥ 1`, and `counter ≥ 0` holds for every state since the
counter is a non-negative big integer); `Tick`, `UpgradeProduction`,
`Save` and `Reset` preserve `production ≥ 1` unconditionally, and
`Load` preserves it whenever every deserializable blob in the store has
production at least 1 — which holds for every configuration reachable
from a fresh state with an empty storage slot, since `Save` only writes
encodings of invariant states. -/
theorem c7_invariant :
    (∀ now : Int, (State.new now).counter = 0 ∧ 1 ≤ (State.new now).production) ∧
    (∀ (env : Env) (s : State) (msg : Msg), 1 ≤ s.production → msg ≠ .Load →
      1 ≤ (reducer env s msg).state.production) ∧
    (∀ (env : Env) (s : State), 1 ≤ s.production → StoreInv env.store →
      1 ≤ (reducer env s .Load).state.production) ∧
    (∀ c : Config, Reachable c → 1 ≤ c.state.production ∧ StoreInv c.store) := by
  have hload : ∀ (env : Env) (s : State), 1 ≤ s.production → StoreInv env.store →
      1 ≤ (reducer env s .Load).state.production := by
    intro env s hp hstore
    cases hld : State.load env.store env.now with
    | none => simpa [reducer, hld] using hp
    | some s' =>
      obtain ⟨b, st', hb, hdes, hs'⟩ := load_some_inv hld
      have hst' : 1 ≤ st'.production := hstore b hb st' hdes
      simp [reducer, hld, hs', hst']
  refine ⟨?_, ?_, hload, ?_⟩
  · intro now
    exact ⟨rfl, le_refl 1⟩
  · intro env s msg hp hne
    cases msg with
    | Tick => simpa [reducer] using hp
    | UpgradeProduction =>
      simp only [reducer]
      omega
    | Save => cases h : env.save_ok <;> simpa [reducer, h] using hp
    | Load => exact absurd rfl hne
    | Reset => simp [reducer, State.new]
  · intro c hr
    induction hr with
    | init now =>
      refine ⟨le_refl 1, ?_⟩
      intro b hb
      simp at hb
    | step c now ok err msg h ih =>
      obtain ⟨hp, hs⟩ := ih
      cases msg with
      | Tick => exact ⟨by simpa [reducer] using hp, by simpa [reducer] using hs⟩
      | UpgradeProduction =>
        refine ⟨?_, by simpa [reducer] using hs⟩
        simp only [reducer]
        omega
      | Save =>
        cases hok : ok with
        | false => exact ⟨by simpa [reducer, hok] using hp, by simpa [reducer, hok] using hs⟩
        | true =>
          refine ⟨by simpa [reducer, hok] using hp, ?_⟩
          intro b hb st' hdes
          simp only [reducer, hok, if_pos, Option.some.injEq] at hb
          rw [← hb] at hdes
          simp only [State.save] at hdes
          rw [deserialize_serialize] at hdes
          have hst : { c.state with last_saved_at := some now } = st' :=
            (Option.some.injEq _ _).mp hdes
          rw [← hst]
          exact hp
      | Load =>
        cases hld : State.load c.store now with
        | none =>
          exact ⟨by simpa [reducer, hld] using hp, by simpa [reducer, hld] using hs⟩
        | some s' =>
          obtain ⟨b, st', hb, hdes, hs'⟩ := load_some_inv hld
          have hst' : 1 ≤ st'.production := hs b hb st' hdes
          exact ⟨by simp [reducer, hld, hs', hst'],
            by simpa [reducer, hld] using hs⟩
      | Reset =>
        exact ⟨by simp [reducer, State.new], by simpa [reducer] using hs⟩

/-- Witness for C7: the initial configuration is reachable and
satisfies the invariant, and a concrete `Tick` preserves it. -/
theorem c7_invariant_witness :
    (1 ≤ (⟨0, 1, 0, none⟩ : State).production ∧ Msg.Tick ≠ Msg.Load ∧
      1 ≤ (reducer ⟨0, none, true, ""⟩ ⟨0, 1, 0, none⟩ .Tick).state.production) ∧
    (Reachable ⟨State.new 0, none⟩ ∧
      1 ≤ (⟨State.new 0, none⟩ : Config).state.production ∧
      StoreInv (⟨State.new 0, none⟩ : Config).store) :=
  ⟨⟨by decide, by decide,
    c7_invariant.2.1 ⟨0, none, true, ""⟩ ⟨0, 1, 0, none⟩ .Tick (by decide)
      (by decide)⟩,
   ⟨Reachable.init 0,
    (c7_invariant.2.2.2 ⟨State.new 0, none⟩ (Reachable.init 0)).1,
    (c7_invariant.2.2.2 ⟨State.new 0, none⟩ (Reachable.init 0)).2⟩⟩
